import Mathlib

/-!
# Manual backtesting simulator: shallow embedding and verification

This file is a shallow embedding of the Streamlit backtesting simulator in
src/app.py, together with theorems settling the behavioural claims made by
its specification.  Prices are modelled as rationals; the Streamlit session
state becomes an explicit record that the per-day processing functions
transform.  Fallible spots of the Python code (pandas indexing errors,
arithmetic on a missing field) are modelled with Except.
-/

/-- One intraday OHLC bar: a row of the DataFrame returned by
get_intraday_data (src/app.py lines 17-25).  Field names follow the yfinance
column names used by the source (Datetime, Open, High, Low, Close). -/
structure Bar where
  Datetime : Nat
  Open : ℚ
  High : ℚ
  Low : ℚ
  Close : ℚ
deriving DecidableEq

/-- POSITION_SIZE = 2_000_000 (src/app.py line 13). -/
def POSITION_SIZE : ℚ := 2000000

/-- Models Python round(x, 2) from src/app.py line 126: rounding to two
decimal places. -/
def round2 (q : ℚ) : ℚ := ((round (100 * q) : ℤ) : ℚ) / 100

/-- One dictionary appended to st.session_state.trade_data
(src/app.py lines 119-127).  PnL holds the already-rounded value stored by
the code, round(pnl, 2). -/
structure TradeRecord where
  Date : String
  Ticker : String
  EntryTime : Nat
  EntryPrice : ℚ
  ExitPrice : ℚ
  Result : String
  PnL : ℚ
deriving DecidableEq

/-- The Streamlit session-state fields the simulator reads and writes
(src/app.py lines 35-43 initialise them).  The bar DataFrame slice stored in
st.session_state.data becomes an optional list of bars. -/
structure SimState where
  trade_data : List TradeRecord
  dates : List String
  current_day : Nat
  running : Bool
  entered : Bool
  ticker : Option String
  entry_price : Option ℚ
  entry_time : Option Nat
  data : Option (List Bar)
deriving DecidableEq

/-- The session state right after initialisation (src/app.py lines 35-43):
empty trade log, day index 0, no run in progress.  The list of randomly
sampled dates is a parameter, since get_random_dates samples without a seed;
its length is 50 in the source (n=50, line 29). -/
def initState (dates : List String) : SimState :=
  { trade_data := []
    dates := dates
    current_day := 0
    running := false
    entered := false
    ticker := none
    entry_price := none
    entry_time := none
    data := none }

/-- Models the Streamlit slider widget used at src/app.py lines 47-48: the
value the widget yields always lies on the track between min_value and
max_value, so an attempted position outside the range is confined (clamped)
to the nearer end of the track; no assignment is ever refused. -/
def slider (minv maxv value : ℚ) : ℚ := max minv (min maxv value)

/-- TP_PCT (src/app.py line 47): the Take Profit slider value in percent,
bounded to [0.5, 5.0], divided by 100. -/
def TP_PCT (v : ℚ) : ℚ := slider (1/2) 5 v / 100

/-- SL_PCT (src/app.py line 48): the Stop Loss slider value in percent,
bounded to [0.2, 5.0], divided by 100. -/
def SL_PCT (v : ℚ) : ℚ := slider (1/5) 5 v / 100

/-- The Start Next Day button handler (src/app.py lines 53-60): when the day
index is still below the number of dates, mark the run as started and clear
the per-day entry fields; otherwise do nothing. -/
def startNextDay (st : SimState) : SimState :=
  if st.current_day < st.dates.length then
    { st with running := true, entered := false, ticker := none,
              entry_price := none, entry_time := none, data := none }
  else st

/-- The at-most-one entry click the operator makes during the bar walk of a day:
either no entry button is ever pressed, or the Enter TQQQ button with key
index i (src/app.py line 80) or the Enter SQQQ button with key index i
(line 87) is pressed. -/
inductive Choice where
  | noEntry : Choice
  | enterTQQQ : Nat → Choice
  | enterSQQQ : Nat → Choice
deriving DecidableEq

/-- The bar-walk loop of src/app.py lines 74-95, iterating index i over
range(len(tqqq_data)).  Each iteration displays the Open of sqqq_data row i
(line 76), which raises a KeyError when the SQQQ frame has no row i; on the
matching button press the entry fields are captured (ticker, the Open of the bar
as entry price, its Datetime, and the iloc[i:] tail as the evaluation data)
and entered is set, after which the loop breaks (lines 94-95).  The first
list argument recurses over the remaining TQQQ bars while i tracks the
absolute index. -/
def walkLoop (tq sq : List Bar) (choice : Choice) (st : SimState) :
    List Bar → Nat → Except String SimState
  | [], _ => .ok st
  | b :: rest, i =>
    match sq.get? i with
    | none => .error "KeyError"
    | some sb =>
      match choice with
      | .noEntry => walkLoop tq sq choice st rest (i + 1)
      | .enterTQQQ j =>
        if i = j then
          .ok { st with ticker := some "TQQQ", entry_price := some b.Open,
                        entry_time := some b.Datetime, data := some (tq.drop i),
                        entered := true }
        else walkLoop tq sq choice st rest (i + 1)
      | .enterSQQQ j =>
        if i = j then
          .ok { st with ticker := some "SQQQ", entry_price := some sb.Open,
                        entry_time := some sb.Datetime, data := some (sq.drop i),
                        entered := true }
        else walkLoop tq sq choice st rest (i + 1)

/-- The simulation-logic block of src/app.py lines 63-95, guarded by
running and not entered.  Line 64 reads dates[current_day] (IndexError when
out of range).  When the intraday data of either ticker is missing (None), the
day is skipped: the day index advances and the run stops (lines 68-71).
Otherwise the bar walk runs (lines 74-95). -/
def simLogic (tq sq : Option (List Bar)) (choice : Choice) (st : SimState) :
    Except String SimState :=
  if st.running = true ∧ st.entered = false then
    match st.dates.get? st.current_day with
    | none => .error "IndexError"
    | some _ =>
      match tq, sq with
      | none, _ => .ok { st with current_day := st.current_day + 1, running := false }
      | some _, none => .ok { st with current_day := st.current_day + 1, running := false }
      | some tqs, some sqs => walkLoop tqs sqs choice st tqs 0
  else .ok st

/-- The exit-evaluation loop of src/app.py lines 104-112: scan the stored
bars in order; the first bar whose High reaches the take-profit price wins
(exit at tp), else the first bar whose Low reaches the stop-loss price loses
(exit at sl); return none when no bar triggers either branch. -/
def evalLoop (tp sl : ℚ) : List Bar → Option (String × ℚ)
  | [] => none
  | b :: rest =>
    if b.High ≥ tp then some ("Win", tp)
    else if b.Low ≤ sl then some ("Loss", sl)
    else evalLoop tp sl rest

/-- Lines 104-116 of src/app.py: the exit loop followed by the no-hit
fallback, where the result becomes the no-threshold-hit string and the exit
price the Close of data.iloc[-1] (an IndexError when the stored slice is
empty). -/
def evalTrade (tp sl : ℚ) (bars : List Bar) : Except String (String × ℚ) :=
  match evalLoop tp sl bars with
  | some r => .ok r
  | none =>
    match bars.getLast? with
    | some lb => .ok ("No TP/SL Hit", lb.Close)
    | none => .error "IndexError"

/-- The after-entry block of src/app.py lines 98-146, guarded by entered:
compute tp and sl from the entry price and the configured fractions
(lines 99-100), evaluate the exit (lines 101-116), compute
pnl = (exit_price - entry_price) * POSITION_SIZE / entry_price (line 118),
append the trade record with PnL rounded to two decimals (lines 119-127),
then advance the day index and clear the running and entered flags
(lines 144-146).  Arithmetic on a missing entry field would be a Python
TypeError. -/
def recordBlock (tpf slf : ℚ) (st : SimState) : Except String SimState :=
  if st.entered = true then
    match st.entry_price, st.data, st.ticker, st.entry_time with
    | some ep, some bars, some tk, some et =>
      match st.dates.get? st.current_day with
      | none => .error "IndexError"
      | some date =>
        let tp := ep * (1 + tpf)
        let sl := ep * (1 - slf)
        match evalTrade tp sl bars with
        | .error e => .error e
        | .ok (result, exit_price) =>
          let pnl := (exit_price - ep) * POSITION_SIZE / ep
          .ok { st with
                trade_data := st.trade_data ++
                  [{ Date := date, Ticker := tk, EntryTime := et,
                     EntryPrice := ep, ExitPrice := exit_price,
                     Result := result, PnL := round2 pnl }]
                current_day := st.current_day + 1
                running := false
                entered := false }
    | _, _, _, _ => .error "TypeError"
  else .ok st

/-- One complete processed day, as one Streamlit script run in which the
Start Next Day button was pressed: the button handler (lines 53-60), then
the simulation-logic block (lines 63-95) with the data the provider returns for the
two tickers and the single choice of the operator, then the after-entry block
(lines 98-146).  tpv and slv are the raw slider positions in percent. -/
def runDay (tpv slv : ℚ) (st : SimState) (tq sq : Option (List Bar))
    (choice : Choice) : Except String SimState :=
  match simLogic tq sq choice (startNextDay st) with
  | .error e => .error e
  | .ok st1 => recordBlock (TP_PCT tpv) (SL_PCT slv) st1

/-- The total PnL reported by the final summary (src/app.py line 153):
the sum of the stored, already-rounded per-trade PnL values. -/
def totalPnL (st : SimState) : ℚ := (st.trade_data.map fun r => r.PnL).sum

/-! ## Exit-evaluation lemmas -/

/-- Bars that trigger neither threshold are scanned past without effect. -/
lemma evalLoop_append_of_no_hit (tp sl : ℚ) (pre l : List Bar)
    (hpre : ∀ a ∈ pre, a.High < tp ∧ sl < a.Low) :
    evalLoop tp sl (pre ++ l) = evalLoop tp sl l := by
  induction pre with
  | nil => rfl
  | cons a pre ih =>
    have ha := hpre a (List.mem_cons_self a pre)
    simp only [List.cons_append, evalLoop]
    rw [if_neg (not_le.mpr ha.1), if_neg (not_le.mpr ha.2)]
    exact ih fun b hb => hpre b (List.mem_cons_of_mem a hb)

/-- A bar whose High reaches the take-profit price stops the scan with a
Win at the take-profit price, whatever its Low does. -/
lemma evalLoop_win_head (tp sl : ℚ) (b : Bar) (rest : List Bar)
    (hb : b.High ≥ tp) :
    evalLoop tp sl (b :: rest) = some ("Win", tp) := by
  simp only [evalLoop, if_pos hb]

/-- The scan only ever reports a Win at the take-profit price or a Loss at
the stop-loss price. -/
lemma evalLoop_eq_some (tp sl : ℚ) (bars : List Bar) (res : String) (xp : ℚ)
    (h : evalLoop tp sl bars = some (res, xp)) :
    (res = "Win" ∧ xp = tp) ∨ (res = "Loss" ∧ xp = sl) := by
  induction bars with
  | nil => simp [evalLoop] at h
  | cons b rest ih =>
    unfold evalLoop at h
    split_ifs at h with h1 h2
    · simp only [Option.some.injEq, Prod.mk.injEq] at h
      exact Or.inl ⟨h.1.symm, h.2.symm⟩
    · simp only [Option.some.injEq, Prod.mk.injEq] at h
      exact Or.inr ⟨h.1.symm, h.2.symm⟩
    · exact ih h

/-- C2: in the evaluation of an entered trade, if bar k is the first bar
whose High reaches the take-profit price ep * (1 + tpf) and no earlier bar
satisfies the take-profit or the stop-loss condition, the outcome is Win
and the exit price is the take-profit price, regardless of later bars. -/
theorem evalTrade_first_tp_wins (ep tpf slf : ℚ) (pre rest : List Bar) (b : Bar)
    (hpre : ∀ a ∈ pre, a.High < ep * (1 + tpf) ∧ ep * (1 - slf) < a.Low)
    (hb : b.High ≥ ep * (1 + tpf)) :
    evalTrade (ep * (1 + tpf)) (ep * (1 - slf)) (pre ++ b :: rest) =
      .ok ("Win", ep * (1 + tpf)) := by
  unfold evalTrade
  rw [evalLoop_append_of_no_hit _ _ _ _ hpre, evalLoop_win_head _ _ _ _ hb]

/-- The second bar of the end-to-end example of the spec: at 09:31 the high
101.6 crosses the take-profit price 101.50. -/
def specBar1 : Bar := { Datetime := 0, Open := 100, High := 1002/10, Low := 998/10, Close := 1001/10 }

/-- The first bar of the end-to-end example of the spec: at 09:30 neither
threshold is touched. -/
def specBar2 : Bar := { Datetime := 1, Open := 1001/10, High := 1016/10, Low := 100, Close := 1015/10 }

/-- Witness for C2 at the end-to-end example of the spec: entry 100,
TP 1.5 percent, SL 0.5 percent, first bar quiet, second bar crossing. -/
theorem evalTrade_first_tp_wins_witness :
    (∀ a ∈ [specBar1], a.High < 100 * (1 + 3/200) ∧ 100 * (1 - 1/200) < a.Low) ∧
    specBar2.High ≥ 100 * (1 + 3/200) ∧
    evalTrade (100 * (1 + 3/200)) (100 * (1 - 1/200)) ([specBar1] ++ [specBar2]) =
      .ok ("Win", 100 * (1 + 3/200)) :=
  ⟨by norm_num [List.forall_mem_singleton, specBar1],
   by norm_num [specBar2],
   evalTrade_first_tp_wins 100 (3/200) (1/200) [specBar1] [] specBar2
     (by norm_num [List.forall_mem_singleton, specBar1]) (by norm_num [specBar2])⟩

/-- C3: when the first bar that satisfies either threshold condition
satisfies both at once, take-profit takes precedence: the outcome is Win at
the take-profit price. -/
theorem evalTrade_tp_precedence (ep tpf slf : ℚ) (pre rest : List Bar) (b : Bar)
    (hpre : ∀ a ∈ pre, a.High < ep * (1 + tpf) ∧ ep * (1 - slf) < a.Low)
    (hbT : b.High ≥ ep * (1 + tpf)) (hbS : b.Low ≤ ep * (1 - slf)) :
    evalTrade (ep * (1 + tpf)) (ep * (1 - slf)) (pre ++ b :: rest) =
      .ok ("Win", ep * (1 + tpf)) := by
  unfold evalTrade
  rw [evalLoop_append_of_no_hit _ _ _ _ hpre, evalLoop_win_head _ _ _ _ hbT]

/-- A bar touching both thresholds at once. -/
def bothBar : Bar := { Datetime := 0, Open := 100, High := 102, Low := 99, Close := 100 }

/-- Witness for C3: a single bar touching both the take-profit price 101.5
and the stop-loss price 99.5 yields a Win. -/
theorem evalTrade_tp_precedence_witness :
    bothBar.High ≥ 100 * (1 + 3/200) ∧ bothBar.Low ≤ 100 * (1 - 1/200) ∧
    evalTrade (100 * (1 + 3/200)) (100 * (1 - 1/200)) ([] ++ [bothBar]) =
      .ok ("Win", 100 * (1 + 3/200)) :=
  ⟨by norm_num [bothBar], by norm_num [bothBar],
   evalTrade_tp_precedence 100 (3/200) (1/200) [] [] bothBar
     (by simp) (by norm_num [bothBar]) (by norm_num [bothBar])⟩

/-- C4: when no bar of a non-empty evaluation subsequence satisfies either
threshold condition, the outcome is the no-threshold-hit classification and
the exit price is the Close of the final bar. -/
theorem evalTrade_no_hit (tp sl : ℚ) (bars : List Bar) (hne : bars ≠ [])
    (hall : ∀ a ∈ bars, a.High < tp ∧ sl < a.Low) :
    evalTrade tp sl bars = .ok ("No TP/SL Hit", (bars.getLast hne).Close) := by
  have h1 : evalLoop tp sl bars = none := by
    have h := evalLoop_append_of_no_hit tp sl bars [] hall
    simpa [evalLoop] using h
  unfold evalTrade
  rw [h1, List.getLast?_eq_getLast bars hne]

/-- Witness for C4: a single quiet bar exits at its close. -/
theorem evalTrade_no_hit_witness :
    ([specBar1] : List Bar) ≠ [] ∧
    (∀ a ∈ [specBar1], a.High < 100 * (1 + 3/200) ∧ 100 * (1 - 1/200) < a.Low) ∧
    evalTrade (100 * (1 + 3/200)) (100 * (1 - 1/200)) [specBar1] =
      .ok ("No TP/SL Hit", specBar1.Close) :=
  ⟨by simp, by norm_num [List.forall_mem_singleton, specBar1], by
    have h := evalTrade_no_hit (100 * (1 + 3/200)) (100 * (1 - 1/200)) [specBar1]
      (by simp) (by norm_num [List.forall_mem_singleton, specBar1])
    simpa using h⟩

/-! ## State-machine lemmas -/

/-- When days remain, the Start Next Day button starts a run and clears the
entry fields. -/
lemma startNextDay_of_lt (st : SimState)
    (hday : st.current_day < st.dates.length) :
    startNextDay st =
      { st with running := true, entered := false, ticker := none,
                entry_price := none, entry_time := none, data := none } := by
  unfold startNextDay
  rw [if_pos hday]

/-- The simulation-logic block does nothing unless a run is in progress and
no position is entered. -/
lemma simLogic_not_active (tq sq : Option (List Bar)) (c : Choice) (st : SimState)
    (h : ¬(st.running = true ∧ st.entered = false)) :
    simLogic tq sq c st = .ok st := by
  unfold simLogic
  rw [if_neg h]

/-- Missing data for either ticker skips the day: the day index advances and
the run stops, with no other change. -/
lemma simLogic_skip (tq sq : Option (List Bar)) (c : Choice) (st : SimState)
    (hrun : st.running = true) (hent : st.entered = false)
    (hday : st.current_day < st.dates.length) (hmiss : tq = none ∨ sq = none) :
    simLogic tq sq c st =
      .ok { st with current_day := st.current_day + 1, running := false } := by
  unfold simLogic
  rw [if_pos ⟨hrun, hent⟩, List.get?_eq_get hday]
  rcases hmiss with h | h
  · subst h; rfl
  · subst h
    cases tq with
    | none => rfl
    | some tqs => rfl

/-- With data present for both tickers, the simulation-logic block is the
bar walk from index 0. -/
lemma simLogic_walk (tqs sqs : List Bar) (c : Choice) (st : SimState)
    (hrun : st.running = true) (hent : st.entered = false)
    (hday : st.current_day < st.dates.length) :
    simLogic (some tqs) (some sqs) c st = walkLoop tqs sqs c st tqs 0 := by
  unfold simLogic
  rw [if_pos ⟨hrun, hent⟩, List.get?_eq_get hday]

/-- Walking every remaining bar without an entry click leaves the state
untouched, provided the SQQQ frame covers every displayed index. -/
lemma walkLoop_noEntry (tq sq : List Bar) (st : SimState) (l : List Bar) (i : Nat)
    (hlen : i + l.length ≤ sq.length) :
    walkLoop tq sq Choice.noEntry st l i = .ok st := by
  induction l generalizing i with
  | nil => rfl
  | cons b rest ih =>
    have hi : i < sq.length := by
      simp only [List.length_cons] at hlen
      omega
    unfold walkLoop
    rw [List.get?_eq_get hi]
    exact ih (i + 1) (by simp only [List.length_cons] at hlen; omega)

/-- The after-entry block does nothing when no position was entered. -/
lemma recordBlock_not_entered (tpf slf : ℚ) (st : SimState)
    (hent : st.entered = false) :
    recordBlock tpf slf st = .ok st := by
  unfold recordBlock
  rw [if_neg (by simp [hent])]

/-- Forward computation of the after-entry block: with all entry fields set
and a successful exit evaluation, exactly one trade record is appended, the
day index advances and the flags clear. -/
lemma recordBlock_entered (tpf slf : ℚ) (st : SimState) (ep : ℚ) (bars : List Bar)
    (tk : String) (et : Nat) (date res : String) (xp : ℚ)
    (hent : st.entered = true) (hp : st.entry_price = some ep)
    (hd : st.data = some bars) (htk : st.ticker = some tk)
    (het : st.entry_time = some et)
    (hdate : st.dates.get? st.current_day = some date)
    (hev : evalTrade (ep * (1 + tpf)) (ep * (1 - slf)) bars = .ok (res, xp)) :
    recordBlock tpf slf st =
      .ok { st with
            trade_data := st.trade_data ++
              [{ Date := date, Ticker := tk, EntryTime := et, EntryPrice := ep,
                 ExitPrice := xp, Result := res,
                 PnL := round2 ((xp - ep) * POSITION_SIZE / ep) }]
            current_day := st.current_day + 1
            running := false
            entered := false } := by
  unfold recordBlock
  rw [if_pos hent]
  simp only [hp, hd, htk, het, hdate, hev]

/-- Inversion of a successful after-entry block in the entered case: the
entry fields were all present, the exit evaluation succeeded, and the new
state is the old one with exactly the computed record appended, the day
index advanced and the flags cleared. -/
lemma recordBlock_ok_entered (tpf slf : ℚ) (st st2 : SimState)
    (hent : st.entered = true) (h : recordBlock tpf slf st = .ok st2) :
    ∃ ep bars tk et date res xp,
      st.entry_price = some ep ∧ st.data = some bars ∧ st.ticker = some tk ∧
      st.entry_time = some et ∧ st.dates.get? st.current_day = some date ∧
      evalTrade (ep * (1 + tpf)) (ep * (1 - slf)) bars = .ok (res, xp) ∧
      st2 = { st with
              trade_data := st.trade_data ++
                [{ Date := date, Ticker := tk, EntryTime := et, EntryPrice := ep,
                   ExitPrice := xp, Result := res,
                   PnL := round2 ((xp - ep) * POSITION_SIZE / ep) }]
              current_day := st.current_day + 1
              running := false
              entered := false } := by
  unfold recordBlock at h
  rw [if_pos hent] at h
  cases hp : st.entry_price with
  | none => rw [hp] at h; cases hd : st.data <;> cases htk : st.ticker <;>
      cases het : st.entry_time <;> simp [hd, htk, het] at h
  | some ep =>
  cases hd : st.data with
  | none => rw [hp, hd] at h; cases htk : st.ticker <;>
      cases het : st.entry_time <;> simp [htk, het] at h
  | some bars =>
  cases htk : st.ticker with
  | none => rw [hp, hd, htk] at h; cases het : st.entry_time <;> simp [het] at h
  | some tk =>
  cases het : st.entry_time with
  | none => rw [hp, hd, htk, het] at h; simp at h
  | some et =>
  rw [hp, hd, htk, het] at h
  cases hdate : st.dates.get? st.current_day with
  | none => simp only [hdate] at h; exact absurd h (by simp)
  | some date =>
  simp only [hdate] at h
  cases hev : evalTrade (ep * (1 + tpf)) (ep * (1 - slf)) bars with
  | error e => simp only [hev] at h; exact absurd h (by simp)
  | ok r =>
  obtain ⟨res, xp⟩ := r
  simp only [hev, Except.ok.injEq] at h
  exact ⟨ep, bars, tk, et, date, res, xp, rfl, rfl, rfl, rfl, rfl, hev, h.symm⟩

/-- A successful bar walk either leaves the state untouched (no entry) or
sets exactly the entry fields and the entered flag. -/
lemma walkLoop_ok_inv (tq sq : List Bar) (c : Choice) (st : SimState)
    (l : List Bar) (i : Nat) (st2 : SimState)
    (h : walkLoop tq sq c st l i = .ok st2) :
    st2 = st ∨
    ∃ tk ep et bars,
      st2 =
        { st with ticker := some tk, entry_price := some ep,
                  entry_time := some et, data := some bars, entered := true } := by
  induction l generalizing i with
  | nil =>
    left
    simp only [walkLoop, Except.ok.injEq] at h
    exact h.symm
  | cons b rest ih =>
    unfold walkLoop at h
    cases hsq : sq.get? i with
    | none => rw [hsq] at h; exact absurd h (by simp)
    | some sb =>
      cases c with
      | noEntry =>
        simp only [hsq] at h
        exact ih _ h
      | enterTQQQ j =>
        simp only [hsq] at h
        split_ifs at h with hij
        · simp only [Except.ok.injEq] at h
          exact Or.inr ⟨"TQQQ", b.Open, b.Datetime, tq.drop i, h.symm⟩
        · exact ih _ h
      | enterSQQQ j =>
        simp only [hsq] at h
        split_ifs at h with hij
        · simp only [Except.ok.injEq] at h
          exact Or.inr ⟨"SQQQ", sb.Open, sb.Datetime, sq.drop i, h.symm⟩
        · exact ih _ h

/-- Gluing step: when the simulation-logic block succeeds, a processed day
is that result fed to the after-entry block. -/
lemma runDay_eq_record (tpv slv : ℚ) (st st1 : SimState)
    (tq sq : Option (List Bar)) (c : Choice)
    (h : simLogic tq sq c (startNextDay st) = .ok st1) :
    runDay tpv slv st tq sq c = recordBlock (TP_PCT tpv) (SL_PCT slv) st1 := by
  unfold runDay
  rw [h]

/-- Inversion of a successful simulation-logic block: either it was not
active, or the day was within range and it either skipped the day or walked
the bars, the walk itself either leaving the state alone or entering. -/
lemma simLogic_ok_inv (tq sq : Option (List Bar)) (c : Choice) (st st1 : SimState)
    (h : simLogic tq sq c st = .ok st1) :
    st1 = st ∨
    (st.running = true ∧ st.entered = false ∧ st.current_day < st.dates.length ∧
      (st1 = { st with current_day := st.current_day + 1, running := false } ∨
       ∃ tk ep et bars,
         st1 =
           { st with ticker := some tk, entry_price := some ep,
                     entry_time := some et, data := some bars, entered := true })) := by
  unfold simLogic at h
  split_ifs at h with hcond
  · cases hdg : st.dates.get? st.current_day with
    | none =>
      simp only [hdg] at h
      exact absurd h (by simp)
    | some d =>
      simp only [hdg] at h
      have hlt : st.current_day < st.dates.length := by
        rcases List.get?_eq_some.mp hdg with ⟨hl, _⟩
        exact hl
      cases tq with
      | none =>
        simp only [Except.ok.injEq] at h
        exact Or.inr ⟨hcond.1, hcond.2, hlt, Or.inl h.symm⟩
      | some tqs =>
        cases sq with
        | none =>
          simp only [Except.ok.injEq] at h
          exact Or.inr ⟨hcond.1, hcond.2, hlt, Or.inl h.symm⟩
        | some sqs =>
          rcases walkLoop_ok_inv tqs sqs c st tqs 0 st1 h with h1 | ⟨tk, ep, et, bars, h1⟩
          · exact Or.inl h1
          · exact Or.inr ⟨hcond.1, hcond.2, hlt, Or.inr ⟨tk, ep, et, bars, h1⟩⟩
  · simp only [Except.ok.injEq] at h
    exact Or.inl h.symm

/-- C8: on a day whose data is missing for either ticker, the day is
skipped: the trade log is unchanged, the day index advances by exactly one,
and the run ends without error. -/
theorem missing_data_skips_day (tpv slv : ℚ) (st : SimState)
    (tq sq : Option (List Bar)) (c : Choice)
    (hday : st.current_day < st.dates.length)
    (hmiss : tq = none ∨ sq = none) :
    runDay tpv slv st tq sq c =
      .ok
        { st with current_day := st.current_day + 1, running := false,
                  entered := false, ticker := none, entry_price := none,
                  entry_time := none, data := none } := by
  have h1 := simLogic_skip tq sq c
    { st with running := true, entered := false, ticker := none,
              entry_price := none, entry_time := none, data := none }
    rfl rfl hday hmiss
  unfold runDay
  rw [startNextDay_of_lt st hday, h1]
  exact recordBlock_not_entered _ _ _ rfl

/-- Witness for C8: the very first day of a fresh session with no TQQQ data
is skipped in this exact way. -/
theorem missing_data_skips_day_witness :
    (initState ["2023-01-02"]).current_day < (initState ["2023-01-02"]).dates.length ∧
    runDay (3/2) (1/2) (initState ["2023-01-02"]) none (some []) Choice.noEntry =
      .ok
        { initState ["2023-01-02"] with
            current_day := (initState ["2023-01-02"]).current_day + 1,
            running := false, entered := false, ticker := none,
            entry_price := none, entry_time := none, data := none } :=
  ⟨by simp [initState],
   missing_data_skips_day (3/2) (1/2) (initState ["2023-01-02"]) none (some [])
     Choice.noEntry (by simp [initState]) (Or.inl rfl)⟩

/-- C7 (amended): walking the bars of a day to the end with no entry choice
leaves the trade log and the day index unchanged; the running flag stays
set, so the same day replays rather than advancing. -/
theorem walk_without_entry_keeps_day (tpv slv : ℚ) (st : SimState)
    (tqs sqs : List Bar)
    (hday : st.current_day < st.dates.length)
    (hlen : tqs.length ≤ sqs.length) :
    runDay tpv slv st (some tqs) (some sqs) Choice.noEntry =
      .ok
        { st with running := true, entered := false, ticker := none,
                  entry_price := none, entry_time := none, data := none } := by
  have h1 := simLogic_walk tqs sqs Choice.noEntry
    { st with running := true, entered := false, ticker := none,
              entry_price := none, entry_time := none, data := none }
    rfl rfl hday
  have h2 := walkLoop_noEntry tqs sqs
    { st with running := true, entered := false, ticker := none,
              entry_price := none, entry_time := none, data := none }
    tqs 0 (by simpa using hlen)
  unfold runDay
  rw [startNextDay_of_lt st hday, h1, h2]
  exact recordBlock_not_entered _ _ _ rfl

/-- Witness for C7 (amended) on a concrete one-bar day. -/
theorem walk_without_entry_keeps_day_witness :
    (initState ["2023-01-02"]).current_day < (initState ["2023-01-02"]).dates.length ∧
    ([specBar1].length ≤ [specBar1].length) ∧
    runDay (3/2) (1/2) (initState ["2023-01-02"]) (some [specBar1]) (some [specBar1])
        Choice.noEntry =
      .ok
        { initState ["2023-01-02"] with
            running := true, entered := false, ticker := none,
            entry_price := none, entry_time := none, data := none } :=
  ⟨by simp [initState], le_refl _,
   walk_without_entry_keeps_day (3/2) (1/2) (initState ["2023-01-02"]) [specBar1]
     [specBar1] (by simp [initState]) (le_refl _)⟩

/-- The state produced by a one-bar day walked to the end without entry:
the day index is still 0 and the run is still marked as in progress. -/
def noEntryDayState : SimState :=
  { trade_data := [], dates := ["2023-01-02"], current_day := 0, running := true,
    entered := false, ticker := none, entry_price := none, entry_time := none,
    data := none }

/-- Counterexample for C7 as stated: after walking a one-bar day to the end
with no entry, the day index has not advanced by one; it is unchanged. -/
theorem walk_without_entry_counterexample :
    runDay (3/2) (1/2) (initState ["2023-01-02"]) (some [specBar1]) (some [specBar1])
        Choice.noEntry = .ok noEntryDayState ∧
    noEntryDayState.current_day ≠ (initState ["2023-01-02"]).current_day + 1 := by
  exact ⟨rfl, by simp [noEntryDayState, initState]⟩

/-- The state produced by a skipped first day in a one-date session. -/
def skippedDayState : SimState :=
  { trade_data := [], dates := ["2023-01-02"], current_day := 1, running := false,
    entered := false, ticker := none, entry_price := none, entry_time := none,
    data := none }

/-- Counterexample for C1 as stated: after processing one day that is
skipped for missing data, one day has been processed but the trade log is
empty, so the log length does not equal the number of days processed. -/
theorem trade_log_length_counterexample :
    runDay (3/2) (1/2) (initState ["2023-01-02"]) none none Choice.noEntry =
      .ok skippedDayState ∧
    skippedDayState.trade_data.length ≠ skippedDayState.current_day := by
  exact ⟨rfl, by simp [skippedDayState]⟩

/-- C1 (amended): one processed day appends at most one trade record (at
most one record or skip per date), and preserves the invariant that the
trade log length is at most the day index, which is at most the fixed
day-count target 50; in particular the log length never exceeds 50.  (As
stated the claim fails: a skipped day advances the day index without
appending, so the log length can be strictly below the number of days
processed.) -/
theorem trade_log_invariant (tpv slv : ℚ) (st st2 : SimState)
    (tq sq : Option (List Bar)) (c : Choice)
    (hlog : st.trade_data.length ≤ st.current_day)
    (hday : st.current_day ≤ st.dates.length)
    (h50 : st.dates.length = 50)
    (hent : st.entered = false)
    (hrun : st.running = true → st.current_day < st.dates.length)
    (h : runDay tpv slv st tq sq c = .ok st2) :
    st2.trade_data.length ≤ st2.current_day ∧
    st2.current_day ≤ st2.dates.length ∧
    st2.dates.length = 50 ∧
    st2.entered = false ∧
    (st2.running = true → st2.current_day < st2.dates.length) ∧
    st2.trade_data.length ≤ 50 ∧
    (st2.trade_data.length = st.trade_data.length ∨
     st2.trade_data.length = st.trade_data.length + 1) := by
  unfold runDay at h
  cases hsim : simLogic tq sq c (startNextDay st) with
  | error e => rw [hsim] at h; exact absurd h (by simp)
  | ok st1 =>
    rw [hsim] at h
    replace h : recordBlock (TP_PCT tpv) (SL_PCT slv) st1 = .ok st2 := h
    by_cases hlt : st.current_day < st.dates.length
    · rw [startNextDay_of_lt st hlt] at hsim
      rcases simLogic_ok_inv _ _ _ _ _ hsim with h1 | ⟨_, _, _, h1 | ⟨tk, ep, et, bars, h1⟩⟩
      · subst h1
        rw [recordBlock_not_entered _ _ _ rfl] at h
        simp only [Except.ok.injEq] at h
        subst h
        dsimp only
        exact ⟨hlog, le_of_lt hlt, h50, rfl, fun _ => hlt, by omega, Or.inl rfl⟩
      · subst h1
        rw [recordBlock_not_entered _ _ _ rfl] at h
        simp only [Except.ok.injEq] at h
        subst h
        dsimp only
        refine ⟨Nat.le_succ_of_le hlog, hlt, h50, rfl, ?_, by omega, Or.inl rfl⟩
        intro hfalse
        exact absurd hfalse (by simp)
      · subst h1
        rcases recordBlock_ok_entered _ _ _ _ rfl h with
          ⟨ep', bars', tk', et', date, res, xp, _, _, _, _, _, _, hst2⟩
        subst hst2
        dsimp only
        simp only [List.length_append, List.length_cons, List.length_nil]
        refine ⟨by omega, hlt, h50, trivial, ?_, by omega, Or.inr trivial⟩
        intro hfalse
        exact absurd hfalse (by simp)
    · have h0 : startNextDay st = st := by
        unfold startNextDay; rw [if_neg hlt]
      rw [h0] at hsim
      rcases simLogic_ok_inv _ _ _ _ _ hsim with h1 | ⟨_, _, hlt2, _⟩
      · subst h1
        rw [recordBlock_not_entered _ _ _ hent] at h
        simp only [Except.ok.injEq] at h
        subst h
        exact ⟨hlog, hday, h50, hent, hrun, by omega, Or.inl rfl⟩
      · exact absurd hlt2 hlt

/-- The date pool of a full 50-date fresh session. -/
def fullDates : List String := List.replicate 50 "2023-01-02"

/-- The state after the first day of a full 50-date session is skipped. -/
def skippedDayState50 : SimState :=
  { trade_data := [], dates := fullDates, current_day := 1, running := false,
    entered := false, ticker := none, entry_price := none, entry_time := none,
    data := none }

/-- Witness for C1 (amended) at a concrete skipped first day of a 50-date
session. -/
theorem trade_log_invariant_witness :
    ((initState fullDates).dates.length = 50) ∧
    (skippedDayState50.trade_data.length ≤ skippedDayState50.current_day ∧
     skippedDayState50.current_day ≤ skippedDayState50.dates.length ∧
     skippedDayState50.dates.length = 50 ∧
     skippedDayState50.entered = false ∧
     (skippedDayState50.running = true →
       skippedDayState50.current_day < skippedDayState50.dates.length) ∧
     skippedDayState50.trade_data.length ≤ 50 ∧
     (skippedDayState50.trade_data.length = (initState fullDates).trade_data.length ∨
      skippedDayState50.trade_data.length =
        (initState fullDates).trade_data.length + 1)) := by
  constructor
  · simp [initState, fullDates]
  · exact trade_log_invariant (3/2) (1/2) (initState fullDates) skippedDayState50
      none none Choice.noEntry (by simp [initState]) (by simp [initState])
      (by simp [initState, fullDates]) rfl (by simp [initState]) rfl

/-! ## Recorded-trade properties -/

/-- A quiet bar whose close (4) sits far from its open (3): no threshold is
hit and the exit price 4 makes the exact PnL 2000000/3, a value that two-
decimal rounding must change. -/
def cexBar : Bar := { Datetime := 0, Open := 3, High := 3, Low := 3, Close := 4 }

/-- A session state mid-day with a position entered at price 3 on TQQQ and
the single bar cexBar left to evaluate. -/
def cexEnteredState : SimState :=
  { trade_data := [], dates := ["2023-01-02"], current_day := 0, running := true,
    entered := true, ticker := some "TQQQ", entry_price := some 3,
    entry_time := some 0, data := some [cexBar] }

/-- The record the after-entry block appends for cexEnteredState. -/
def cexRecord : TradeRecord :=
  { Date := "2023-01-02", Ticker := "TQQQ", EntryTime := 0, EntryPrice := 3,
    ExitPrice := 4, Result := "No TP/SL Hit", PnL := 66666667/100 }

/-- The session state after that trade is recorded. -/
def cexAfterState : SimState :=
  { trade_data := [cexRecord], dates := ["2023-01-02"], current_day := 1,
    running := false, entered := false, ticker := some "TQQQ",
    entry_price := some 3, entry_time := some 0, data := some [cexBar] }

/-- The exit evaluation of cexBar from entry price 3 with 1.5 percent TP and
0.5 percent SL hits no threshold and exits at the close 4. -/
lemma evalTrade_cex :
    evalTrade (3 * (1 + 3/200)) (3 * (1 - 1/200)) [cexBar] =
      .ok ("No TP/SL Hit", 4) := by
  norm_num [evalTrade, evalLoop, cexBar]

/-- round(200000000/3) = 66666667. -/
lemma round_cex : (round ((200000000 : ℚ)/3) : ℤ) = 66666667 := by
  rw [round_eq]
  rw [show (200000000 : ℚ)/3 + 1/2 = 400000003/6 by norm_num]
  rw [Int.floor_eq_iff]
  constructor <;> norm_num

/-- The exact PnL of the cex trade, 2000000/3, rounds to 666666.67. -/
lemma round2_cex : round2 ((4 - 3) * POSITION_SIZE / 3) = 66666667/100 := by
  rw [show ((4 : ℚ) - 3) * POSITION_SIZE / 3 = 2000000/3 by norm_num [POSITION_SIZE]]
  rw [round2]
  rw [show (100 : ℚ) * (2000000/3) = 200000000/3 by norm_num]
  rw [round_cex]
  norm_num

/-- The concrete after-entry block run for the cex trade. -/
lemma recordBlock_cex :
    recordBlock (3/200) (1/200) cexEnteredState = .ok cexAfterState := by
  have h := recordBlock_entered (3/200) (1/200) cexEnteredState 3 [cexBar] "TQQQ" 0
    "2023-01-02" "No TP/SL Hit" 4 rfl rfl rfl rfl rfl rfl evalTrade_cex
  rw [h, round2_cex]
  rfl

/-- Counterexample for C5 as stated: in the cex trade, the stored PnL field
is the rounded value 666666.67, which differs from the exact formula value
(exit - entry) * POSITION_SIZE / entry = 2000000/3. -/
theorem trade_record_pnl_counterexample :
    recordBlock (3/200) (1/200) cexEnteredState = .ok cexAfterState ∧
    cexRecord.PnL ≠
      (cexRecord.ExitPrice - cexRecord.EntryPrice) * POSITION_SIZE /
        cexRecord.EntryPrice := by
  refine ⟨recordBlock_cex, ?_⟩
  norm_num [cexRecord, POSITION_SIZE]

/-- C5 (amended): every recorded trade appends exactly one TradeRecord
whose entry price is the captured entry price, whose outcome and exit price
come from the exit evaluation (Win if TP hit first, Loss if SL hit first,
the no-hit classification otherwise), and whose stored profit/loss is
(exit - entry) * POSITION_SIZE / entry ROUNDED to two decimal places. -/
theorem trade_record_fields (tpf slf : ℚ) (st st2 : SimState)
    (hent : st.entered = true) (h : recordBlock tpf slf st = .ok st2) :
    ∃ r bars, st.data = some bars ∧
      st2.trade_data = st.trade_data ++ [r] ∧
      st.entry_price = some r.EntryPrice ∧
      evalTrade (r.EntryPrice * (1 + tpf)) (r.EntryPrice * (1 - slf)) bars =
        .ok (r.Result, r.ExitPrice) ∧
      r.PnL = round2 ((r.ExitPrice - r.EntryPrice) * POSITION_SIZE / r.EntryPrice) := by
  rcases recordBlock_ok_entered tpf slf st st2 hent h with
    ⟨ep, bars, tk, et, date, res, xp, hp, hd, htk, het, hdate, hev, hst2⟩
  subst hst2
  exact ⟨{ Date := date, Ticker := tk, EntryTime := et, EntryPrice := ep,
           ExitPrice := xp, Result := res,
           PnL := round2 ((xp - ep) * POSITION_SIZE / ep) },
         bars, hd, rfl, hp, hev, rfl⟩

/-- Witness for C5 (amended) at the concrete cex trade. -/
theorem trade_record_fields_witness :
    cexEnteredState.entered = true ∧
    (∃ r bars, cexEnteredState.data = some bars ∧
      cexAfterState.trade_data = cexEnteredState.trade_data ++ [r] ∧
      cexEnteredState.entry_price = some r.EntryPrice ∧
      evalTrade (r.EntryPrice * (1 + 3/200)) (r.EntryPrice * (1 - 1/200)) bars =
        .ok (r.Result, r.ExitPrice) ∧
      r.PnL = round2 ((r.ExitPrice - r.EntryPrice) * POSITION_SIZE / r.EntryPrice)) :=
  ⟨rfl, trade_record_fields (3/200) (1/200) cexEnteredState cexAfterState rfl
    recordBlock_cex⟩

/-- C10: the stored per-trade PnL is the exact formula value rounded to two
decimal places, so the reported total PnL is the sum of the rounded values,
not the sum of the exact values. -/
theorem total_pnl_sums_rounded (tpf slf ep xp : ℚ) (st : SimState) (bars : List Bar)
    (tk : String) (et : Nat) (date res : String)
    (hent : st.entered = true) (hp : st.entry_price = some ep)
    (hd : st.data = some bars) (htk : st.ticker = some tk)
    (het : st.entry_time = some et)
    (hdate : st.dates.get? st.current_day = some date)
    (hev : evalTrade (ep * (1 + tpf)) (ep * (1 - slf)) bars = .ok (res, xp)) :
    ∃ st2, recordBlock tpf slf st = .ok st2 ∧
      (st2.trade_data.map fun r => r.PnL) =
        (st.trade_data.map fun r => r.PnL) ++
          [round2 ((xp - ep) * POSITION_SIZE / ep)] ∧
      totalPnL st2 = totalPnL st + round2 ((xp - ep) * POSITION_SIZE / ep) := by
  refine ⟨_, recordBlock_entered tpf slf st ep bars tk et date res xp
    hent hp hd htk het hdate hev, ?_, ?_⟩
  · dsimp only
    simp
  · unfold totalPnL
    dsimp only
    simp

/-- Witness for C10 at the concrete cex trade, where the rounded value
really differs from the exact one. -/
theorem total_pnl_sums_rounded_witness :
    cexEnteredState.entered = true ∧
    ∃ st2, recordBlock (3/200) (1/200) cexEnteredState = .ok st2 ∧
      (st2.trade_data.map fun r => r.PnL) =
        (cexEnteredState.trade_data.map fun r => r.PnL) ++
          [round2 ((4 - 3) * POSITION_SIZE / 3)] ∧
      totalPnL st2 =
        totalPnL cexEnteredState + round2 ((4 - 3) * POSITION_SIZE / 3) :=
  ⟨rfl, total_pnl_sums_rounded (3/200) (1/200) 3 4 cexEnteredState [cexBar] "TQQQ" 0
    "2023-01-02" "No TP/SL Hit" rfl rfl rfl rfl rfl rfl evalTrade_cex⟩

/-- C9: for a trade with strictly positive entry price and TP and SL
fractions in (0,1), a Win outcome has strictly positive unrounded PnL and a
Loss outcome strictly negative unrounded PnL. -/
theorem pnl_sign_of_outcome (ep tpf slf : ℚ) (bars : List Bar) (res : String) (xp : ℚ)
    (hep : 0 < ep) (ht0 : 0 < tpf) (ht1 : tpf < 1) (hs0 : 0 < slf) (hs1 : slf < 1)
    (h : evalTrade (ep * (1 + tpf)) (ep * (1 - slf)) bars = .ok (res, xp)) :
    (res = "Win" → 0 < (xp - ep) * POSITION_SIZE / ep) ∧
    (res = "Loss" → (xp - ep) * POSITION_SIZE / ep < 0) := by
  unfold evalTrade at h
  cases hev : evalLoop (ep * (1 + tpf)) (ep * (1 - slf)) bars with
  | none =>
    simp only [hev] at h
    cases hl : bars.getLast? with
    | none =>
      simp only [hl] at h
      exact absurd h (by simp)
    | some lb =>
      simp only [hl, Except.ok.injEq, Prod.mk.injEq] at h
      constructor
      · intro hw
        rw [← h.1] at hw
        exact absurd hw (by simp)
      · intro hw
        rw [← h.1] at hw
        exact absurd hw (by simp)
  | some p =>
    obtain ⟨r0, x0⟩ := p
    simp only [hev, Except.ok.injEq, Prod.mk.injEq] at h
    obtain ⟨hr, hx⟩ := h
    rcases evalLoop_eq_some _ _ _ _ _ hev with ⟨hw, hxe⟩ | ⟨hw, hxe⟩
    · have hres : res = "Win" := hr.symm.trans hw
      have hxp : xp = ep * (1 + tpf) := hx.symm.trans hxe
      constructor
      · intro _
        have hnum : 0 < (xp - ep) * POSITION_SIZE := by
          rw [hxp]
          have h1 : 0 < ep * tpf := mul_pos hep ht0
          simp only [POSITION_SIZE]
          nlinarith [h1]
        exact div_pos hnum hep
      · intro hL
        exact absurd (hres.symm.trans hL) (by simp)
    · have hres : res = "Loss" := hr.symm.trans hw
      have hxp : xp = ep * (1 - slf) := hx.symm.trans hxe
      constructor
      · intro hw2
        exact absurd (hres.symm.trans hw2) (by simp)
      · intro _
        have hnum : (xp - ep) * POSITION_SIZE < 0 := by
          rw [hxp]
          have h1 : 0 < ep * slf := mul_pos hep hs0
          simp only [POSITION_SIZE]
          nlinarith [h1]
        exact div_neg_of_neg_of_pos hnum hep

/-- Witness for C9 at the end-to-end example of the spec (a Win at take
profit 101.5 from entry 100). -/
theorem pnl_sign_of_outcome_witness :
    (0 : ℚ) < 100 ∧
    evalTrade (100 * (1 + 3/200)) (100 * (1 - 1/200)) [specBar1, specBar2] =
      .ok ("Win", 100 * (1 + 3/200)) ∧
    (("Win" = "Win" → (0 : ℚ) < (100 * (1 + 3/200) - 100) * POSITION_SIZE / 100) ∧
     ("Win" = "Loss" → (100 * (1 + 3/200) - 100) * POSITION_SIZE / 100 < (0 : ℚ))) :=
  ⟨by norm_num,
   by norm_num [evalTrade, evalLoop, specBar1, specBar2],
   pnl_sign_of_outcome 100 (3/200) (1/200) [specBar1, specBar2] "Win"
     (100 * (1 + 3/200)) (by norm_num) (by norm_num) (by norm_num) (by norm_num)
     (by norm_num) (by norm_num [evalTrade, evalLoop, specBar1, specBar2])⟩

/-! ## Configuration -/

/-- Counterexample for C6 as stated: an attempted Take Profit slider
position of 600 percent, a fraction of 6 outside (0,1), is not rejected at
assignment; the widget silently clamps it to the track maximum, yielding the
accepted in-range fraction 1/20 instead of the requested 6. -/
theorem config_rejection_counterexample :
    TP_PCT 600 = 1/20 ∧ (1/20 : ℚ) ≠ 6 ∧ SL_PCT 600 = 1/20 ∧
    ((0 : ℚ) < 1/20 ∧ (1/20 : ℚ) < 1) := by
  norm_num [TP_PCT, SL_PCT, slider]

/-- C6 (amended): the TP and SL fractions are never outside (0,1), but not
because out-of-range assignments are rejected: the sliders clamp every
attempted position into their tracks, so the TP fraction always lies in
[1/200, 1/20] and the SL fraction in [1/500, 1/20], both inside (0,1). -/
theorem config_slider_bounds (v w : ℚ) :
    1/200 ≤ TP_PCT v ∧ TP_PCT v ≤ 1/20 ∧ 0 < TP_PCT v ∧ TP_PCT v < 1 ∧
    1/500 ≤ SL_PCT w ∧ SL_PCT w ≤ 1/20 ∧ 0 < SL_PCT w ∧ SL_PCT w < 1 := by
  unfold TP_PCT SL_PCT slider
  have h1 : (1/2 : ℚ) ≤ max (1/2) (min 5 v) := le_max_left _ _
  have h2 : max (1/2 : ℚ) (min 5 v) ≤ 5 := max_le (by norm_num) (min_le_left _ _)
  have h3 : (1/5 : ℚ) ≤ max (1/5) (min 5 w) := le_max_left _ _
  have h4 : max (1/5 : ℚ) (min 5 w) ≤ 5 := max_le (by norm_num) (min_le_left _ _)
  refine ⟨by linarith, by linarith, by linarith, by linarith,
          by linarith, by linarith, by linarith, by linarith⟩
